import Mathlib

/-!
Verification of the command-routing layer of the sharded-database query router
(`src/mongo/s/commands/commands_public.cpp`).

Each command's merge logic is embedded as an executable Lean function translated
from the corresponding `run` method, and the spec's claims about those merges
are proved (or refuted) against the embedding.
-/

namespace MongosCommands

/-! ## Sum/rollup merge: `CollectionStats::run` (collStats)

The sharded branch iterates over every shard's response, summing the allow-listed
numeric fields (`count`, `size`, `storageSize`, `numExtents`, `totalIndexSize`)
into a `counts` map, and accumulating `unscaledCollSize += shardAvgObjSize *
shardObjCount`.  After the loop, `avgObjSize` is emitted as
`unscaledCollSize / counts["count"]` when `counts["count"] > 0`, else `0.0`.
-/

/-- One shard's collStats response, restricted to the numeric fields the rollup
merge reads (`e.numberLong()` on each). -/
structure ShardCollStats where
  count : Int
  size : Int
  storageSize : Int
  numExtents : Int
  totalIndexSize : Int
  avgObjSize : Int
deriving DecidableEq

/-- The running state of the collStats rollup: the `counts` map entries for the
five allow-listed names, plus `unscaledCollSize`. -/
structure CollStatsAcc where
  count : Int
  size : Int
  storageSize : Int
  numExtents : Int
  totalIndexSize : Int
  unscaledCollSize : Int
deriving DecidableEq

def collStatsInit : CollStatsAcc := ⟨0, 0, 0, 0, 0, 0⟩

/-- One iteration of the per-shard loop in `CollectionStats::run`:
`counts[name] += e.numberLong()` for each allow-listed field, and
`unscaledCollSize += shardAvgObjSize * shardObjCount`. -/
def collStatsStep (acc : CollStatsAcc) (r : ShardCollStats) : CollStatsAcc where
  count := acc.count + r.count
  size := acc.size + r.size
  storageSize := acc.storageSize + r.storageSize
  numExtents := acc.numExtents + r.numExtents
  totalIndexSize := acc.totalIndexSize + r.totalIndexSize
  unscaledCollSize := acc.unscaledCollSize + r.avgObjSize * r.count

/-- The accumulated rollup over all shard responses, in dispatch order. -/
def collStatsAcc (rs : List ShardCollStats) : CollStatsAcc :=
  rs.foldl collStatsStep collStatsInit

/-- The merged `avgObjSize` field:
`if (counts["count"] > 0) result.append("avgObjSize", unscaledCollSize / counts["count"]) else 0.0`.
The C++ division is on `double`; it is modelled as exact rational division. -/
def collStatsAvgObjSize (rs : List ShardCollStats) : ℚ :=
  let a := collStatsAcc rs
  if 0 < a.count then (a.unscaledCollSize : ℚ) / (a.count : ℚ) else 0

theorem collStatsAcc_foldl_spec (rs : List ShardCollStats) (a : CollStatsAcc) :
    (rs.foldl collStatsStep a).count = a.count + (rs.map ShardCollStats.count).sum ∧
    (rs.foldl collStatsStep a).size = a.size + (rs.map ShardCollStats.size).sum ∧
    (rs.foldl collStatsStep a).storageSize
      = a.storageSize + (rs.map ShardCollStats.storageSize).sum ∧
    (rs.foldl collStatsStep a).numExtents
      = a.numExtents + (rs.map ShardCollStats.numExtents).sum ∧
    (rs.foldl collStatsStep a).totalIndexSize
      = a.totalIndexSize + (rs.map ShardCollStats.totalIndexSize).sum ∧
    (rs.foldl collStatsStep a).unscaledCollSize
      = a.unscaledCollSize + (rs.map (fun r => r.avgObjSize * r.count)).sum := by
  induction rs generalizing a with
  | nil => simp
  | cons r rs ih =>
    obtain ⟨h1, h2, h3, h4, h5, h6⟩ := ih (collStatsStep a r)
    refine ⟨?_, ?_, ?_, ?_, ?_, ?_⟩ <;> simp only [List.foldl_cons, List.map_cons, List.sum_cons]
    · rw [h1]; simp only [collStatsStep]; ring
    · rw [h2]; simp only [collStatsStep]; ring
    · rw [h3]; simp only [collStatsStep]; ring
    · rw [h4]; simp only [collStatsStep]; ring
    · rw [h5]; simp only [collStatsStep]; ring
    · rw [h6]; simp only [collStatsStep]; ring

/-- C1: in the collStats rollup merge, the merged `count`, `size`, `storageSize`,
`numExtents` and `totalIndexSize` each equal the arithmetic sum of the per-shard
values; the merged `avgObjSize` equals (Σ avgObjSize_i × count_i) / (Σ count_i)
whenever the summed count is positive, equals 0 when the summed count is 0, and
in general is not the mean of the per-shard averages. -/
theorem collStats_merge_correct (rs : List ShardCollStats) :
    (collStatsAcc rs).count = (rs.map ShardCollStats.count).sum ∧
    (collStatsAcc rs).size = (rs.map ShardCollStats.size).sum ∧
    (collStatsAcc rs).storageSize = (rs.map ShardCollStats.storageSize).sum ∧
    (collStatsAcc rs).numExtents = (rs.map ShardCollStats.numExtents).sum ∧
    (collStatsAcc rs).totalIndexSize = (rs.map ShardCollStats.totalIndexSize).sum ∧
    (0 < (rs.map ShardCollStats.count).sum →
      collStatsAvgObjSize rs
        = (((rs.map (fun r => r.avgObjSize * r.count)).sum : ℤ) : ℚ)
            / (((rs.map ShardCollStats.count).sum : ℤ) : ℚ)) ∧
    ((rs.map ShardCollStats.count).sum = 0 → collStatsAvgObjSize rs = 0) ∧
    collStatsAvgObjSize [⟨1, 0, 0, 0, 0, 1⟩, ⟨3, 0, 0, 0, 0, 3⟩]
      ≠ ((1 : ℚ) + 3) / 2 := by
  obtain ⟨h1, h2, h3, h4, h5, h6⟩ := collStatsAcc_foldl_spec rs collStatsInit
  simp only [collStatsInit, zero_add] at h1 h2 h3 h4 h5 h6
  rw [show rs.foldl collStatsStep ⟨0, 0, 0, 0, 0, 0⟩ = collStatsAcc rs from rfl]
    at h1 h2 h3 h4 h5 h6
  refine ⟨h1, h2, h3, h4, h5, ?_, ?_, ?_⟩
  · intro hpos
    simp only [collStatsAvgObjSize]
    rw [h1, h6, if_pos hpos]
  · intro hzero
    simp only [collStatsAvgObjSize]
    rw [h1, h6, hzero]
    simp
  · have hacc : collStatsAcc [⟨1, 0, 0, 0, 0, 1⟩, ⟨3, 0, 0, 0, 0, 3⟩]
        = ⟨4, 0, 0, 0, 0, 10⟩ := rfl
    simp only [collStatsAvgObjSize, hacc]
    norm_num

/-- Witness for `collStats_merge_correct`: two shards with counts 1 and 3 and
per-shard averages 1 and 3 merge to avgObjSize (1·1 + 3·3)/4 = 5/2, not the
averages' mean 2. -/
theorem collStats_merge_correct_witness :
    (0 : Int) < ([⟨1, 0, 0, 0, 0, 1⟩, ⟨3, 0, 0, 0, 0, 3⟩].map ShardCollStats.count).sum ∧
    collStatsAvgObjSize [⟨1, 0, 0, 0, 0, 1⟩, ⟨3, 0, 0, 0, 0, 3⟩] = 5 / 2 := by
  refine ⟨by decide, ?_⟩
  have h :=
    (collStats_merge_correct [⟨1, 0, 0, 0, 0, 1⟩, ⟨3, 0, 0, 0, 0, 3⟩]).2.2.2.2.2.1 (by decide)
  rw [h]
  norm_num [List.map_cons, List.map_nil, List.sum_cons, List.sum_nil]

/-! ## Bounded k-way merge by score: `Geo2dFindNearCmd::run` (geoNear)

The sharded branch extracts the limit
(`limitName = cmdObj["num"].isNumber() ? "num" : "limit"`, default 100),
inserts every shard's `(dis, obj)` candidates into a
`multimap<double, BSONObj>` (ordered by score, equal scores kept in insertion
order), and emits the first `limit` entries of the multimap.
-/

/-- Limit extraction from `Geo2dFindNearCmd::run`: the `num` argument is
consulted first; only when `num` is absent is `limit` consulted; default 100. -/
def extractLimit (num lim : Option Int) : Int :=
  match num with
  | some v => v
  | none =>
    match lim with
    | some v => v
    | none => 100

/-- `std::multimap` insertion: the new entry is placed at the upper bound of its
key, i.e. after every entry whose key is less than or equal to it. -/
def mmInsert {α : Type} (x : ℚ × α) : List (ℚ × α) → List (ℚ × α)
  | [] => [x]
  | y :: ys => if x.1 < y.1 then x :: y :: ys else y :: mmInsert x ys

/-- The geoNear merge accumulates every shard's `results` entries into the
score-ordered multimap, shard by shard in dispatch order. -/
def geoMergeAll {α : Type} (shardResults : List (List (ℚ × α))) : List (ℚ × α) :=
  shardResults.flatten.foldl (fun acc x => mmInsert x acc) []

/-- The emitted `results` array: the multimap's entries in ascending-score
order, truncated by `outCount < limit`. -/
def geoResults {α : Type} (shardResults : List (List (ℚ × α))) (num lim : Option Int) :
    List (ℚ × α) :=
  (geoMergeAll shardResults).take (extractLimit num lim).toNat

theorem mem_mmInsert {α : Type} (x z : ℚ × α) (l : List (ℚ × α)) :
    z ∈ mmInsert x l ↔ z = x ∨ z ∈ l := by
  induction l with
  | nil => simp [mmInsert]
  | cons y ys ih =>
    by_cases h : x.1 < y.1
    · simp [mmInsert, h]
    · simp only [mmInsert, if_neg h, List.mem_cons, ih]
      tauto

theorem pairwise_mmInsert {α : Type} (x : ℚ × α) (l : List (ℚ × α))
    (h : l.Pairwise (fun a b => a.1 ≤ b.1)) :
    (mmInsert x l).Pairwise (fun a b => a.1 ≤ b.1) := by
  induction l with
  | nil => simp [mmInsert]
  | cons y ys ih =>
    rcases List.pairwise_cons.mp h with ⟨hy, hys⟩
    by_cases hlt : x.1 < y.1
    · rw [mmInsert, if_pos hlt]
      refine List.pairwise_cons.mpr ⟨?_, h⟩
      intro z hz
      rcases List.mem_cons.mp hz with rfl | hz
      · exact le_of_lt hlt
      · exact le_trans (le_of_lt hlt) (hy z hz)
    · rw [mmInsert, if_neg hlt]
      refine List.pairwise_cons.mpr ⟨?_, ih hys⟩
      intro z hz
      rcases (mem_mmInsert x z ys).mp hz with rfl | hz
      · exact le_of_not_lt hlt
      · exact hy z hz

theorem pairwise_foldl_mmInsert {α : Type} (l : List (ℚ × α)) (acc : List (ℚ × α))
    (h : acc.Pairwise (fun a b => a.1 ≤ b.1)) :
    (l.foldl (fun acc x => mmInsert x acc) acc).Pairwise (fun a b => a.1 ≤ b.1) := by
  induction l generalizing acc with
  | nil => exact h
  | cons x xs ih => exact ih (mmInsert x acc) (pairwise_mmInsert x acc h)

theorem length_mmInsert {α : Type} (x : ℚ × α) (l : List (ℚ × α)) :
    (mmInsert x l).length = l.length + 1 := by
  induction l with
  | nil => rfl
  | cons y ys ih =>
    by_cases h : x.1 < y.1
    · simp [mmInsert, h]
    · simp [mmInsert, h, ih]

theorem length_foldl_mmInsert {α : Type} (l : List (ℚ × α)) (acc : List (ℚ × α)) :
    (l.foldl (fun acc x => mmInsert x acc) acc).length = acc.length + l.length := by
  induction l generalizing acc with
  | nil => rfl
  | cons x xs ih =>
    rw [List.foldl_cons, ih (mmInsert x acc), length_mmInsert, List.length_cons]
    omega

/-- C2 (amended): in the geoNear k-way merge, the emitted `results` array is
globally sorted ascending by score and its length is
min(requested limit, total candidates); the requested limit defaults to 100,
and when both `limit` and `num` are given the `num` value takes precedence
(it is not the minimum of the two). -/
theorem geoNear_merge_correct {α : Type} (shardResults : List (List (ℚ × α)))
    (num lim : Option Int) :
    (geoResults shardResults num lim).Pairwise (fun a b => a.1 ≤ b.1) ∧
    (geoResults shardResults num lim).length
      = min (extractLimit num lim).toNat shardResults.flatten.length ∧
    extractLimit none none = 100 ∧
    (∀ v w, extractLimit (some v) w = v) := by
  refine ⟨?_, ?_, rfl, fun v w => rfl⟩
  · exact ((pairwise_foldl_mmInsert shardResults.flatten [] (by simp)).sublist
      (List.take_sublist _ _))
  · rw [geoResults, List.length_take, geoMergeAll, length_foldl_mmInsert]
    simp

/-- C2 counterexample: with `num = 5` and `limit = 3` both given, the requested
limit is 5 (the `num` value), not `min 5 3 = 3` as the claim states. -/
theorem geoNear_limit_counterexample :
    extractLimit (some 5) (some 3) = 5 ∧ extractLimit (some 5) (some 3) ≠ min 5 3 := by
  exact ⟨rfl, by decide⟩

/-! ## Sequential chained state: `FileMD5Cmd::run` (filemd5)

For a `{files_id: 1, n: 1}` shard key the command runs a sequential loop:
starting at `n = 0`, it sends the command (with `startAt = n` and the previous
round's `md5state`) to the shard owning chunk `n`, reads back
`nNext = res["numChunks"]`; if `nNext == n` it returns that round's response as
the final answer; otherwise it `verify(nNext > n)` and continues from `nNext`.
The environment (which shard owns which chunk and what it answers) is modelled
as a function `f` from the current index to the round's
(`numChunks`, response) pair.
-/

/-- The chaining loop of `FileMD5Cmd::run`, with an explicit fuel argument in
place of the C++ `while (true)`.  `f n` is the contacted shard's response to
`startAt = n`: its reported `numChunks` and its result document. -/
def fileMD5Loop {α : Type} (f : Nat → Nat × α) : Nat → Nat → Option α
  | 0, _ => none
  | fuel + 1, n =>
    if (f n).1 = n then some (f n).2
    else if n < (f n).1 then fileMD5Loop f fuel (f n).1
    else none

/-- The loop is entered with `n = 0`. -/
def fileMD5Run {α : Type} (f : Nat → Nat × α) (fuel : Nat) : Option α :=
  fileMD5Loop f fuel 0

/-- Ghost trace of `fileMD5Loop`: the sequence of `startAt` indices the loop
visits (mirrors the loop's branches exactly; used only to state ordering). -/
def fileMD5Visited {α : Type} (f : Nat → Nat × α) : Nat → Nat → List Nat
  | 0, _ => []
  | fuel + 1, n =>
    if (f n).1 = n then [n]
    else if n < (f n).1 then n :: fileMD5Visited f fuel (f n).1
    else [n]

theorem fileMD5Visited_head {α : Type} (f : Nat → Nat × α) (fuel n : Nat) :
    (fileMD5Visited f (fuel + 1) n).head? = some n := by
  rw [fileMD5Visited]
  by_cases h1 : (f n).1 = n
  · rw [if_pos h1]; rfl
  · rw [if_neg h1]
    by_cases h2 : n < (f n).1
    · rw [if_pos h2]; rfl
    · rw [if_neg h2]; rfl

theorem fileMD5Loop_reaches {α : Type} (f : Nat → Nat × α) (N : Nat)
    (hprog : ∀ n, n < N → n < (f n).1 ∧ (f n).1 ≤ N) (hstop : (f N).1 = N) :
    ∀ fuel start, start ≤ N → N - start < fuel →
      fileMD5Loop f fuel start = some (f N).2 := by
  intro fuel
  induction fuel with
  | zero => intro start _ h; omega
  | succ fuel ih =>
    intro start hle hfuel
    rcases Nat.lt_or_ge start N with hlt | hge
    · obtain ⟨hinc, hto⟩ := hprog start hlt
      have hne : ¬((f start).1 = start) := by omega
      rw [fileMD5Loop, if_neg hne, if_pos hinc]
      exact ih (f start).1 hto (by omega)
    · have : start = N := by omega
      subst this
      rw [fileMD5Loop, if_pos hstop]

theorem fileMD5Visited_chain {α : Type} (f : Nat → Nat × α) :
    ∀ fuel start, (fileMD5Visited f fuel start).Chain' (fun a b => a < b) := by
  intro fuel
  induction fuel with
  | zero => intro start; simp [fileMD5Visited]
  | succ fuel ih =>
    intro start
    rw [fileMD5Visited]
    by_cases h1 : (f start).1 = start
    · simp [h1]
    · rw [if_neg h1]
      by_cases h2 : start < (f start).1
      · rw [if_pos h2]
        refine List.chain'_cons'.mpr ⟨?_, ih (f start).1⟩
        intro b hb
        cases fuel with
        | zero => simp [fileMD5Visited] at hb
        | succ fuel =>
          rw [fileMD5Visited_head] at hb
          cases hb
          exact h2
      · simp [if_neg h2]

/-- C3: the filemd5 chaining loop starts at index 0; given shard responses
that always advance the index without passing the file's end `N` and a final
round at `N` that reports no advance, the loop terminates with the response of
the terminal round (the last shard's result); a round that reports the same
index terminates the loop immediately with that round's result; a round that
reports a smaller index aborts (the `verify(nNext > n)` guard); and the indices
the loop visits are strictly increasing starting from 0. -/
theorem filemd5_chain_correct {α : Type} (f : Nat → Nat × α) (N : Nat)
    (hprog : ∀ n, n < N → n < (f n).1 ∧ (f n).1 ≤ N) (hstop : (f N).1 = N) :
    (∀ fuel, N < fuel → fileMD5Run f fuel = some (f N).2) ∧
    (∀ n fuel, (f n).1 = n → fileMD5Loop f (fuel + 1) n = some (f n).2) ∧
    (∀ n fuel, (f n).1 < n → fileMD5Loop f (fuel + 1) n = none) ∧
    (∀ fuel, (fileMD5Visited f fuel 0).Chain' (fun a b => a < b)) ∧
    (∀ fuel, (fileMD5Visited f (fuel + 1) 0).head? = some 0) := by
  refine ⟨?_, ?_, ?_, fun fuel => fileMD5Visited_chain f fuel 0,
    fun fuel => fileMD5Visited_head f fuel 0⟩
  · intro fuel hfuel
    exact fileMD5Loop_reaches f N hprog hstop fuel 0 (Nat.zero_le N) (by omega)
  · intro n fuel heq
    rw [fileMD5Loop, if_pos heq]
  · intro n fuel hlt
    have h1 : ¬((f n).1 = n) := by omega
    have h2 : ¬(n < (f n).1) := by omega
    rw [fileMD5Loop, if_neg h1, if_neg h2]

/-- The spec's three-shard scenario: shards own the contiguous chunk runs
[0, 2), [2, 5) and [5, ∞); the file has 7 chunks, so the rounds report
0 → 2 → 5 → 7, and the round at 7 reports 7 (no advance) with result 40. -/
def fileMD5ExampleEnv (n : Nat) : Nat × Nat :=
  if n < 2 then (2, 10) else if n < 5 then (5, 20) else if n < 7 then (7, 30) else (n, 40)

/-- Witness for `filemd5_chain_correct`: on the three-shard example the loop
returns the terminal round's result 40. -/
theorem filemd5_chain_correct_witness :
    fileMD5Run fileMD5ExampleEnv 8 = some 40 := by
  have h := filemd5_chain_correct fileMD5ExampleEnv 7
    (by decide) (by decide)
  exact h.1 8 (by decide)

/-! ## Dedup-union with collation: `DistinctCmd::run` (distinct)

The sharded branch builds a `BSONObjSet` ordered by a comparator constructed
from the caller-supplied collation when one is given
(`!queryCollation.getValue().isEmpty() ? collator.get() : cm->getDefaultCollator()`),
inserts every shard's `values` entries into it, and emits the set's contents in
iteration (comparator) order.  A collation comparator is a strict weak
ordering; it is modelled as comparison of a collation key `key : V → Int`
(values equal under the collation have equal keys). -/

/-- Collation selection in `DistinctCmd::run`: the caller's collation when
supplied, otherwise the namespace's default collator. -/
def activeCollation {V : Type} (caller : Option (V → Int)) (dflt : V → Int) : V → Int :=
  caller.getD dflt

/-- `std::set` insertion under the collation comparator: the value is placed at
its ordered position, and dropped when an equivalent element (equal collation
key) is already present — the first-arrived representative is kept. -/
def setInsert {V : Type} (key : V → Int) (x : V) : List V → List V
  | [] => [x]
  | y :: ys =>
    if key x < key y then x :: y :: ys
    else if key y < key x then y :: setInsert key x ys
    else y :: ys

/-- The distinct merge: every shard's `values` entries are inserted into the
single comparator-ordered set, shard by shard in dispatch order. -/
def mergeDistinct {V : Type} (key : V → Int) (shardValues : List (List V)) : List V :=
  shardValues.flatten.foldl (fun acc v => setInsert key v acc) []

theorem mem_setInsert {V : Type} (key : V → Int) (x z : V) (l : List V)
    (h : z ∈ setInsert key x l) : z = x ∨ z ∈ l := by
  induction l with
  | nil => simpa [setInsert] using h
  | cons y ys ih =>
    by_cases h1 : key x < key y
    · simpa [setInsert, h1] using h
    · by_cases h2 : key y < key x
      · rw [setInsert, if_neg h1, if_pos h2] at h
        rcases List.mem_cons.mp h with rfl | h
        · exact Or.inr (List.mem_cons_self _ _)
        · rcases ih h with rfl | h
          · exact Or.inl rfl
          · exact Or.inr (List.mem_cons_of_mem _ h)
      · rw [setInsert, if_neg h1, if_neg h2] at h
        exact Or.inr h

theorem mem_of_mem_setInsert {V : Type} (key : V → Int) (x z : V) (l : List V)
    (h : z ∈ l) : z ∈ setInsert key x l := by
  induction l with
  | nil => simp at h
  | cons y ys ih =>
    by_cases h1 : key x < key y
    · rw [setInsert, if_pos h1]
      exact List.mem_cons_of_mem _ h
    · by_cases h2 : key y < key x
      · rw [setInsert, if_neg h1, if_pos h2]
        rcases List.mem_cons.mp h with rfl | h
        · exact List.mem_cons_self _ _
        · exact List.mem_cons_of_mem _ (ih h)
      · rw [setInsert, if_neg h1, if_neg h2]
        exact h

theorem setInsert_class {V : Type} (key : V → Int) (x : V) (l : List V) :
    ∃ w ∈ setInsert key x l, key w = key x := by
  induction l with
  | nil => exact ⟨x, by simp [setInsert]⟩
  | cons y ys ih =>
    by_cases h1 : key x < key y
    · exact ⟨x, by rw [setInsert, if_pos h1]; exact List.mem_cons_self _ _, rfl⟩
    · by_cases h2 : key y < key x
      · obtain ⟨w, hw, hkey⟩ := ih
        refine ⟨w, ?_, hkey⟩
        rw [setInsert, if_neg h1, if_pos h2]
        exact List.mem_cons_of_mem _ hw
      · refine ⟨y, ?_, by omega⟩
        rw [setInsert, if_neg h1, if_neg h2]
        exact List.mem_cons_self _ _

theorem pairwise_setInsert {V : Type} (key : V → Int) (x : V) (l : List V)
    (h : l.Pairwise (fun a b => key a < key b)) :
    (setInsert key x l).Pairwise (fun a b => key a < key b) := by
  induction l with
  | nil => simp [setInsert]
  | cons y ys ih =>
    rcases List.pairwise_cons.mp h with ⟨hy, hys⟩
    by_cases h1 : key x < key y
    · rw [setInsert, if_pos h1]
      refine List.pairwise_cons.mpr ⟨?_, h⟩
      intro z hz
      rcases List.mem_cons.mp hz with rfl | hz
      · exact h1
      · exact lt_trans h1 (hy z hz)
    · by_cases h2 : key y < key x
      · rw [setInsert, if_neg h1, if_pos h2]
        refine List.pairwise_cons.mpr ⟨?_, ih hys⟩
        intro z hz
        rcases mem_setInsert key x z ys hz with rfl | hz
        · exact h2
        · exact hy z hz
      · rw [setInsert, if_neg h1, if_neg h2]
        exact h

theorem foldl_setInsert_pairwise {V : Type} (key : V → Int) (l acc : List V)
    (h : acc.Pairwise (fun a b => key a < key b)) :
    (l.foldl (fun acc v => setInsert key v acc) acc).Pairwise
      (fun a b => key a < key b) := by
  induction l generalizing acc with
  | nil => exact h
  | cons v vs ih => exact ih (setInsert key v acc) (pairwise_setInsert key v acc h)

theorem foldl_setInsert_mem_mono {V : Type} (key : V → Int) (l acc : List V)
    (z : V) (h : z ∈ acc) : z ∈ l.foldl (fun acc v => setInsert key v acc) acc := by
  induction l generalizing acc with
  | nil => exact h
  | cons v vs ih => exact ih (setInsert key v acc) (mem_of_mem_setInsert key v z acc h)

theorem foldl_setInsert_complete {V : Type} (key : V → Int) (l acc : List V) :
    ∀ v ∈ l, ∃ w ∈ l.foldl (fun acc v => setInsert key v acc) acc, key w = key v := by
  induction l generalizing acc with
  | nil => intro v hv; simp at hv
  | cons u us ih =>
    intro v hv
    rcases List.mem_cons.mp hv with rfl | hv
    · obtain ⟨w, hw, hkey⟩ := setInsert_class key v acc
      exact ⟨w, foldl_setInsert_mem_mono key us (setInsert key v acc) w hw, hkey⟩
    · exact ih (setInsert key u acc) v hv

theorem foldl_setInsert_sound {V : Type} (key : V → Int) (l acc : List V) :
    ∀ z ∈ l.foldl (fun acc v => setInsert key v acc) acc, z ∈ acc ∨ z ∈ l := by
  induction l generalizing acc with
  | nil => intro z hz; exact Or.inl hz
  | cons v vs ih =>
    intro z hz
    rcases ih (setInsert key v acc) z hz with hz' | hz'
    · rcases mem_setInsert key v z acc hz' with rfl | hz''
      · exact Or.inr (List.mem_cons_self _ _)
      · exact Or.inl hz''
    · exact Or.inr (List.mem_cons_of_mem _ hz')

/-- C4: in the distinct dedup-union merge under the active collation (the
caller-supplied collation, or the namespace default when none is supplied), the
merged `values` array is strictly sorted by the collation comparator (hence in
comparator order, not shard-arrival order, and with no two entries equal under
the collation — exactly one representative per collation-equivalence class);
every value any shard returned has a representative of its equivalence class in
the merged array; every merged entry came from some shard; and the active
collation is the caller's when supplied, the default otherwise. -/
theorem distinct_merge_correct {V : Type} (caller : Option (V → Int)) (dflt : V → Int)
    (shardValues : List (List V)) :
    (mergeDistinct (activeCollation caller dflt) shardValues).Pairwise
      (fun a b => activeCollation caller dflt a < activeCollation caller dflt b) ∧
    (∀ v ∈ shardValues.flatten,
      ∃ w ∈ mergeDistinct (activeCollation caller dflt) shardValues,
        activeCollation caller dflt w = activeCollation caller dflt v) ∧
    (∀ w ∈ mergeDistinct (activeCollation caller dflt) shardValues,
      w ∈ shardValues.flatten) ∧
    (∀ c : V → Int, activeCollation (some c) dflt = c) ∧
    activeCollation none dflt = dflt := by
  refine ⟨foldl_setInsert_pairwise _ _ [] (by simp), ?_, ?_, fun c => rfl, rfl⟩
  · exact foldl_setInsert_complete (activeCollation caller dflt) shardValues.flatten []
  · intro w hw
    rcases foldl_setInsert_sound (activeCollation caller dflt) shardValues.flatten [] w hw
      with h | h
    · simp at h
    · exact h

/-- Witness for `distinct_merge_correct`: merging shard value sets [3, 1] and
[1, 2] under the default identity collation yields the comparator-ordered,
deduplicated [1, 2, 3], and the value 1 has its representative in it. -/
theorem distinct_merge_correct_witness :
    mergeDistinct (activeCollation none (fun v : Int => v)) [[3, 1], [1, 2]] = [1, 2, 3] ∧
    ∃ w ∈ mergeDistinct (activeCollation none (fun v : Int => v)) [[3, 1], [1, 2]],
      activeCollation none (fun v : Int => v) w
        = activeCollation none (fun v : Int => v) 1 := by
  refine ⟨by decide, ?_⟩
  exact (distinct_merge_correct none (fun v : Int => v) [[3, 1], [1, 2]]).2.1 1 (by decide)

/-! ## Response documents and write-concern-error handling

A BSON response document is modelled as an ordered list of named fields.
`PublicGridCommand::_passthrough` first lifts a `writeConcernError` sub-document
(when the shard's raw response has one) into the response via
`appendWriteConcernErrorToCmdResponse(shard->getId(), wcErrorElem, result)` and
then copies the remaining fields with `result.appendElementsUnique(res)`, which
skips every field whose name is already present in the builder. -/

/-- A BSON value: numbers, booleans, strings, sub-documents. -/
inductive BVal where
  | vInt (n : Int)
  | vBool (b : Bool)
  | vStr (s : String)
  | vDoc (fields : List (String × BVal))

/-- A BSON document: an ordered list of named fields. -/
abbrev BDoc := List (String × BVal)

/-- `doc[name]`: the first field with the given name, if any. -/
def lookupF (name : String) : BDoc → Option BVal
  | [] => none
  | (n, v) :: rest => if n = name then some v else lookupF name rest

/-- `BSONObjBuilder::hasField`. -/
def hasF (name : String) (d : BDoc) : Bool :=
  (lookupF name d).isSome

/-- How many fields of the document carry the given name. -/
def countF (name : String) (d : BDoc) : Nat :=
  (d.filter (fun p => p.1 = name)).length

/-- `BSONObjBuilder::appendElementsUnique res`: append the fields of `res`
whose names are not already present in the builder `acc`. -/
def appendElementsUnique (acc res : BDoc) : BDoc :=
  acc ++ res.filter (fun p => !hasF p.1 acc)

/-- Modelled from the spec: `appendWriteConcernErrorToCmdResponse` (declared in
`sharded_command_processing.h`, whose implementation is not among this
repository's sources) lifts a shard's write-concern error into a shard-tagged
`writeConcernError` slot of the cluster response. -/
def wceTagged (shardId : String) (w : BVal) : BVal :=
  .vDoc [("shard", .vStr shardId), ("error", w)]

/-- The response assembly of `PublicGridCommand::_passthrough`: lift the
shard's `writeConcernError` (when present) into the shard-tagged slot first,
then copy the remaining response fields uniquely. -/
def passthroughMerge (shardId : String) (res : BDoc) (acc : BDoc) : BDoc :=
  let acc1 :=
    match lookupF "writeConcernError" res with
    | some w => acc ++ [("writeConcernError", wceTagged shardId w)]
    | none => acc
  appendElementsUnique acc1 res

/-- `BSONElement::number()` as read by `DataSizeCmd::run` on the `size`,
`numObjects` and `millis` fields. -/
def elemNum (v : Option BVal) : Int :=
  match v with
  | some (.vInt n) => n
  | _ => 0

/-- The gathering loop of `DataSizeCmd::run` over successful shard responses:
`size += res["size"].number(); numObjects += ...; millis += ...`. -/
def dataSizeGather (resps : List BDoc) : Int × Int × Int :=
  resps.foldl
    (fun acc r =>
      (acc.1 + elemNum (lookupF "size" r),
       acc.2.1 + elemNum (lookupF "numObjects" r),
       acc.2.2 + elemNum (lookupF "millis" r)))
    (0, 0, 0)

/-- The merged dataSize cluster response: only the three summed fields are
emitted. -/
def dataSizeResponse (resps : List BDoc) : BDoc :=
  [("size", .vInt (dataSizeGather resps).1),
   ("numObjects", .vInt (dataSizeGather resps).2.1),
   ("millis", .vInt (dataSizeGather resps).2.2)]

theorem lookupF_append_left (name : String) (d1 d2 : BDoc) (v : BVal)
    (h : lookupF name d1 = some v) : lookupF name (d1 ++ d2) = some v := by
  induction d1 with
  | nil => simp [lookupF] at h
  | cons p rest ih =>
    rw [List.cons_append, lookupF]
    rw [lookupF] at h
    by_cases hn : p.1 = name
    · rw [if_pos hn] at h ⊢
      exact h
    · rw [if_neg hn] at h ⊢
      exact ih h

theorem countF_append (name : String) (d1 d2 : BDoc) :
    countF name (d1 ++ d2) = countF name d1 + countF name d2 := by
  simp [countF, List.filter_append]

/-- C5 (amended): the single-shard passthrough lifts a shard's
write-concern-error sub-document into the shard-tagged slot and excludes it
from the generic copy of the remaining response fields, so it appears exactly
once in the passthrough response and carries the shard tag. -/
theorem passthrough_wce_lifted (shardId : String) (res : BDoc) (w : BVal)
    (h : lookupF "writeConcernError" res = some w) :
    countF "writeConcernError" (passthroughMerge shardId res []) = 1 ∧
    lookupF "writeConcernError" (passthroughMerge shardId res [])
      = some (wceTagged shardId w) := by
  have hskip :
      res.filter (fun p => !hasF p.1 [("writeConcernError", wceTagged shardId w)])
        = res.filter (fun p => p.1 ≠ "writeConcernError") := by
    apply List.filter_congr
    intro p _
    by_cases hp : p.1 = "writeConcernError"
    · simp [hasF, lookupF, hp]
    · have hne : ¬("writeConcernError" = p.1) := fun hc => hp hc.symm
      simp [hasF, lookupF, hne, hp]
  constructor
  · rw [passthroughMerge]
    simp only [h, List.nil_append]
    rw [appendElementsUnique, countF_append, hskip]
    have : countF "writeConcernError" (res.filter (fun p => p.1 ≠ "writeConcernError")) = 0 := by
      simp [countF, List.filter_filter]
    rw [this]
    rfl
  · rw [passthroughMerge]
    simp only [h, List.nil_append]
    rw [appendElementsUnique]
    exact lookupF_append_left _ _ _ _ (by simp [lookupF])

/-- Witness for `passthrough_wce_lifted`: a concrete shard response with a
write-concern error merges into a passthrough response holding exactly one,
shard-tagged, `writeConcernError` field. -/
theorem passthrough_wce_lifted_witness :
    countF "writeConcernError"
      (passthroughMerge "shard0000"
        [("n", .vInt 1), ("writeConcernError", .vDoc [("code", .vInt 64)]),
         ("ok", .vInt 1)] []) = 1 := by
  exact (passthrough_wce_lifted "shard0000"
    [("n", .vInt 1), ("writeConcernError", .vDoc [("code", .vInt 64)]), ("ok", .vInt 1)]
    (.vDoc [("code", .vInt 64)]) rfl).1

/-- C5 counterexample: the dataSize scatter-gather merge (a merge family)
rebuilds the cluster response from the three summed fields only, so a
write-concern error present in a successful shard response is dropped from the
merged response entirely — it is not lifted into any slot, contradicting the
claim that every merge family lifts it and reports it exactly once. -/
theorem datasize_wce_dropped :
    hasF "writeConcernError"
      [("size", .vInt 5), ("numObjects", .vInt 2), ("millis", .vInt 1),
       ("writeConcernError", .vDoc [("code", .vInt 64)])] = true ∧
    countF "writeConcernError"
      (dataSizeResponse
        [[("size", .vInt 5), ("numObjects", .vInt 2), ("millis", .vInt 1),
          ("writeConcernError", .vDoc [("code", .vInt 64)])]]) = 0 := by
  constructor
  · rfl
  · rfl

/-! ## Stale-topology retry: `cursorCommandPassthrough` and the retry driver

`cursorCommandPassthrough` classifies the shard's response status: a
`SendStaleConfig` or `RecvStaleConfig` status is surfaced by throwing
`RecvStaleConfigException` (the stale signal); any other non-OK status is a
plain command failure; an OK status succeeds.  The refresh-and-retry driver
that catches the stale exception lives in the command-execution loop outside
this file. -/

/-- A shard's raw response as seen by the passthrough: an OK document or an
error status code. -/
inductive ShardResp (α : Type) where
  | ok (v : α)
  | err (code : Int)
deriving DecidableEq

/-- `ErrorCodes::SendStaleConfig`. -/
def sendStaleConfigCode : Int := 13388

/-- `ErrorCodes::RecvStaleConfig`. -/
def recvStaleConfigCode : Int := 9996

/-- The outcome of one passthrough attempt. -/
inductive StepResult (α : Type) where
  | success (v : α)
  | stale
  | failed (code : Int)
deriving DecidableEq

/-- The status classification of `cursorCommandPassthrough`: a stale-config
status throws the stale signal; any other non-OK status fails the command. -/
def classifyShardResponse {α : Type} (r : ShardResp α) : StepResult α :=
  match r with
  | .ok v => .success v
  | .err c =>
    if c = sendStaleConfigCode ∨ c = recvStaleConfigCode then .stale else .failed c

/-- The final outcome of a command, with the number of attempts made. -/
inductive FinalResult (α : Type) where
  | success (v : α)
  | failed (code : Int)
  | staleExhausted
deriving DecidableEq

/-- Modelled from the spec: the stale-topology retry driver (the
command-execution loop that catches `RecvStaleConfigException` is outside this
file's sources).  A single-target passthrough re-enters Attempt exactly once
after a stale signal: a fresh snapshot is fetched and the command resubmitted;
a second consecutive stale signal is surfaced as a failure.  `respond n` is the
shard's response to the (n+1)-th attempt. -/
def runWithStaleRetry {α : Type} (respond : Nat → ShardResp α) : FinalResult α × Nat :=
  match classifyShardResponse (respond 0) with
  | .success v => (.success v, 1)
  | .failed c => (.failed c, 1)
  | .stale =>
    match classifyShardResponse (respond 1) with
    | .success v => (.success v, 2)
    | .failed c => (.failed c, 2)
    | .stale => (.staleExhausted, 2)

/-- C6: a stale-config response status is classified as the stale signal; a
single-target passthrough that receives exactly one stale signal and then an
OK response succeeds after exactly one refresh-and-retry (two attempts in
total); a second consecutive stale signal surfaces as a failure after those
same two attempts; no stale signal means a single attempt; and no execution
ever makes more than two attempts (no unbounded retry loop). -/
theorem stale_retry_contract {α : Type} (respond : Nat → ShardResp α) (v : α) :
    (classifyShardResponse (.err sendStaleConfigCode : ShardResp α) = .stale) ∧
    (classifyShardResponse (.err recvStaleConfigCode : ShardResp α) = .stale) ∧
    (classifyShardResponse (respond 0) = .stale → respond 1 = .ok v →
      runWithStaleRetry respond = (.success v, 2)) ∧
    (classifyShardResponse (respond 0) = .stale →
      classifyShardResponse (respond 1) = .stale →
      runWithStaleRetry respond = (.staleExhausted, 2)) ∧
    (respond 0 = .ok v → runWithStaleRetry respond = (.success v, 1)) ∧
    (∀ r : Nat → ShardResp α, (runWithStaleRetry r).2 ≤ 2) := by
  refine ⟨by simp [classifyShardResponse], by simp [classifyShardResponse],
    ?_, ?_, ?_, ?_⟩
  · intro h0 h1
    rw [runWithStaleRetry, h0, h1]
    rfl
  · intro h0 h1
    rw [runWithStaleRetry, h0, h1]
  · intro h0
    rw [runWithStaleRetry, h0]
    rfl
  · intro r
    rw [runWithStaleRetry]
    cases hc0 : classifyShardResponse (r 0) with
    | success v => simp
    | stale => cases hc1 : classifyShardResponse (r 1) <;> simp
    | failed c => simp

/-- Witness for `stale_retry_contract`: one stale response followed by an OK
response succeeds in exactly two attempts. -/
theorem stale_retry_contract_witness :
    runWithStaleRetry (fun n => if n = 0 then ShardResp.err 13388 else ShardResp.ok 42)
      = (.success 42, 2) := by
  exact (stale_retry_contract (fun n => if n = 0 then ShardResp.err 13388 else ShardResp.ok 42)
    42).2.2.1 (by decide) (by decide)

/-! ## Disallowed commands on sharded collections

`NotAllowedOnShardedCollectionCmd::run` (base of `convertToCapped`, `group`
and `splitVector`) passes through to the primary when the namespace is not
sharded, and otherwise returns an `ErrorCodes::IllegalOperation` status before
any dispatch.  `SplitVectorCmd::run` first rejects cross-database namespaces.
`RenameCollectionCmd::run` uasserts that neither the source (13138) nor the
target (13139) is sharded and that both databases share a primary (13137),
and then performs an admin passthrough to the source database's primary. -/

/-- The outcome of the pre-dispatch classification: a passthrough dispatch to
the primary shard, a pre-dispatch rejection (uassert / error status; nothing is
sent to any shard), or an early failure with only an `errmsg`. -/
inductive RouteOutcome where
  | passthroughTo (primary : String)
  | rejected (code : Int) (msg : String)
  | failedEarly (msg : String)
deriving DecidableEq

/-- `ErrorCodes::IllegalOperation`. -/
def illegalOperationCode : Int := 20

/-- `NotAllowedOnShardedCollectionCmd::run`. -/
def notAllowedOnShardedRun (name : String) (isSharded : Bool) (primary : String) :
    RouteOutcome :=
  if !isSharded then .passthroughTo primary
  else .rejected illegalOperationCode
    ("can't do command: " ++ name ++ " on sharded collection")

/-- `ConvertToCappedCmd`: inherits `NotAllowedOnShardedCollectionCmd::run`. -/
def convertToCappedRun : Bool → String → RouteOutcome :=
  notAllowedOnShardedRun "convertToCapped"

/-- `GroupCmd`: inherits `NotAllowedOnShardedCollectionCmd::run`. -/
def groupRun : Bool → String → RouteOutcome :=
  notAllowedOnShardedRun "group"

/-- `str::startsWith(x, dbName)`: character-wise prefix test. -/
def strStartsWith (s pre : String) : Bool :=
  pre.data.isPrefixOf s.data

/-- `SplitVectorCmd::run`: rejects a namespace outside the command's database,
then defers to `NotAllowedOnShardedCollectionCmd::run`. -/
def splitVectorRun (dbName fullns : String) (isSharded : Bool) (primary : String) :
    RouteOutcome :=
  if !(strStartsWith fullns dbName) then
    .failedEarly "doing a splitVector across dbs isn't supported via mongos"
  else notAllowedOnShardedRun "splitVector" isSharded primary

/-- `RenameCollectionCmd::run`: uasserts 13138/13139/13137 in order, then an
admin passthrough to the source database's primary shard. -/
def renameCollectionRun (fromSharded toSharded : Bool)
    (fromPrimary toPrimary : String) : RouteOutcome :=
  if fromSharded then .rejected 13138 "You can't rename a sharded collection"
  else if toSharded then .rejected 13139 "You can't rename to a sharded collection"
  else if fromPrimary ≠ toPrimary then
    .rejected 13137 "Source and destination collections must be on same shard"
  else .passthroughTo fromPrimary

/-- C7 (amended): convertToCapped, group and splitVector (on a namespace of
its own database) fail with an `IllegalOperation` rejection before any
dispatch when the namespace is sharded, and pass through to the database's
primary shard when it is not; renameCollection rejects pre-dispatch when the
source namespace is sharded, and passes through to the primary only when
additionally the target namespace is unsharded and both databases share the
same primary shard. -/
theorem disallowed_on_sharded_correct :
    (∀ p, convertToCappedRun true p
      = .rejected illegalOperationCode
          "can't do command: convertToCapped on sharded collection") ∧
    (∀ p, convertToCappedRun false p = .passthroughTo p) ∧
    (∀ p, groupRun true p
      = .rejected illegalOperationCode "can't do command: group on sharded collection") ∧
    (∀ p, groupRun false p = .passthroughTo p) ∧
    (∀ db ns p, strStartsWith ns db = true →
      splitVectorRun db ns true p
        = .rejected illegalOperationCode
            "can't do command: splitVector on sharded collection") ∧
    (∀ db ns p, strStartsWith ns db = true →
      splitVectorRun db ns false p = .passthroughTo p) ∧
    (∀ ts fp tp, renameCollectionRun true ts fp tp
      = .rejected 13138 "You can't rename a sharded collection") ∧
    (∀ p, renameCollectionRun false false p p = .passthroughTo p) := by
  refine ⟨fun p => rfl, fun p => rfl, fun p => rfl, fun p => rfl, ?_, ?_,
    fun ts fp tp => rfl, fun p => by simp [renameCollectionRun]⟩
  · intro db ns p h
    rw [splitVectorRun, h]
    rfl
  · intro db ns p h
    rw [splitVectorRun, h]
    rfl

/-- Witness for `disallowed_on_sharded_correct`: splitVector on a sharded
namespace of its own database is rejected with `IllegalOperation`. -/
theorem disallowed_on_sharded_correct_witness :
    splitVectorRun "test" "test.coll" true "shard0000"
      = .rejected illegalOperationCode
          "can't do command: splitVector on sharded collection" := by
  exact disallowed_on_sharded_correct.2.2.2.2.1 "test" "test.coll" "shard0000" (by decide)

/-- C7 counterexample: renameCollection issued against an unpartitioned
(source) namespace is not passed through to the primary when the target
namespace is sharded — it is rejected (13139) before dispatch, contradicting
the claim that against an unpartitioned namespace the command is passed
through to the database's primary shard. -/
theorem rename_unsharded_not_passthrough :
    renameCollectionRun false true "shard0000" "shard0000"
      = .rejected 13139 "You can't rename to a sharded collection" ∧
    renameCollectionRun false true "shard0000" "shard0000"
      ≠ .passthroughTo "shard0000" := by
  exact ⟨rfl, by decide⟩

/-! ## Shard-not-found skip in scatter-gather loops

The scatter loops of `CollectionStats::run`, `DataSizeCmd::run`,
`DistinctCmd::run` and `Geo2dFindNearCmd::run` all resolve each target shard
with `shardRegistry()->getShard(txn, shardId)` and, when resolution fails,
execute `invariant(shardStatus.getStatus() == ErrorCodes::ShardNotFound);
continue;` — a `ShardNotFound` resolution is skipped, while any other
resolution error trips the invariant (a hard process abort, never silently
absorbed).  A shard that resolves but answers with an error fails the whole
command. -/

/-- The result of resolving a shard identifier against the shard registry. -/
inductive ResolveRes where
  | found (endpoint : String)
  | notFound
  | otherError (code : Int)
deriving DecidableEq

/-- A resolved shard's reply to the dispatched command. -/
inductive RunRes (α : Type) where
  | ok (v : α)
  | err (msg : String)
deriving DecidableEq

/-- The outcome of the scatter loop. -/
inductive GatherOutcome (α : Type) where
  | ok (results : List (String × α))
  | remoteFailure (shard : String) (msg : String)
  | invariantViolation
deriving DecidableEq

/-- The scatter loop shared by the multi-shard merges: resolve each target
shard, skip it when the registry reports `ShardNotFound`, abort by invariant on
any other resolution error, fail the whole command on a shard's error reply,
and otherwise collect `(shardId, result)` pairs in dispatch order. -/
def gatherShards {α : Type} (resolve : String → ResolveRes) (run : String → RunRes α) :
    List String → GatherOutcome α
  | [] => .ok []
  | s :: rest =>
    match resolve s with
    | .notFound => gatherShards resolve run rest
    | .otherError _ => .invariantViolation
    | .found _ =>
      match run s with
      | .err m => .remoteFailure s m
      | .ok v =>
        match gatherShards resolve run rest with
        | .ok tl => .ok ((s, v) :: tl)
        | other => other

theorem gatherShards_ok_mem {α : Type} (resolve : String → ResolveRes)
    (run : String → RunRes α) :
    ∀ (shards : List String) (results : List (String × α)),
      gatherShards resolve run shards = .ok results →
      ∀ s ∈ shards, resolve s = .notFound ∨ ∃ v, (s, v) ∈ results := by
  intro shards
  induction shards with
  | nil => intro results _ s hs; simp at hs
  | cons t rest ih =>
    intro results hok s hs
    rw [gatherShards] at hok
    rcases List.mem_cons.mp hs with rfl | hs
    · cases hres : resolve s with
      | notFound => exact Or.inl rfl
      | otherError c => rw [hres] at hok; exact absurd hok (by simp)
      | found e =>
        rw [hres] at hok
        cases hrun : run s with
        | err m => rw [hrun] at hok; exact absurd hok (by simp)
        | ok v =>
          rw [hrun] at hok
          cases htl : gatherShards resolve run rest with
          | ok tl =>
            rw [htl] at hok
            refine Or.inr ⟨v, ?_⟩
            cases hok
            exact List.mem_cons_self _ _
          | remoteFailure sh m => rw [htl] at hok; exact absurd hok (by simp)
          | invariantViolation => rw [htl] at hok; exact absurd hok (by simp)
    · cases hres : resolve t with
      | notFound =>
        rw [hres] at hok
        exact ih results hok s hs
      | otherError c => rw [hres] at hok; exact absurd hok (by simp)
      | found e =>
        rw [hres] at hok
        cases hrun : run t with
        | err m => rw [hrun] at hok; exact absurd hok (by simp)
        | ok v =>
          rw [hrun] at hok
          cases htl : gatherShards resolve run rest with
          | ok tl =>
            rw [htl] at hok
            rcases ih tl htl s hs with h | ⟨w, hw⟩
            · exact Or.inl h
            · refine Or.inr ⟨w, ?_⟩
              cases hok
              exact List.mem_cons_of_mem _ hw
          | remoteFailure sh m => rw [htl] at hok; exact absurd hok (by simp)
          | invariantViolation => rw [htl] at hok; exact absurd hok (by simp)

/-- C8: in the scatter loops, a shard whose resolution reports `ShardNotFound`
is silently skipped and the gathering proceeds over the remaining shards; in
the three-shard scenario with one removed shard the merge input is exactly the
other two shards' results and the command does not fail; any other resolution
error is not silently absorbed (it trips the invariant); a shard that resolves
but replies with an error fails the whole command; and whenever the loop
succeeds, every targeted shard either reported `ShardNotFound` or contributed
a result — the removed-shard condition is the only silently skipped per-shard
failure. -/
theorem shard_not_found_skip {α : Type} (resolve : String → ResolveRes)
    (run : String → RunRes α) (s rest1 : String) (rest : List String)
    (s1 s2 s3 e1 e3 m : String) (v1 v3 : α) :
    (resolve s = .notFound →
      gatherShards resolve run (s :: rest) = gatherShards resolve run rest) ∧
    (resolve s1 = .found e1 → resolve s2 = .notFound → resolve s3 = .found e3 →
      run s1 = .ok v1 → run s3 = .ok v3 →
      gatherShards resolve run [s1, s2, s3] = .ok [(s1, v1), (s3, v3)]) ∧
    (∀ c : Int, resolve s = .otherError c →
      gatherShards resolve run (s :: rest) = .invariantViolation) ∧
    (resolve s = .found rest1 → run s = .err m →
      gatherShards resolve run (s :: rest) = .remoteFailure s m) ∧
    (∀ (shards : List String) (results : List (String × α)),
      gatherShards resolve run shards = .ok results →
      ∀ t ∈ shards, resolve t = .notFound ∨ ∃ v, (t, v) ∈ results) := by
  refine ⟨?_, ?_, ?_, ?_, gatherShards_ok_mem resolve run⟩
  · intro h
    rw [gatherShards, h]
  · intro h1 h2 h3 hr1 hr3
    rw [gatherShards, h1, hr1, gatherShards, h2, gatherShards, h3, hr3, gatherShards]
  · intro c h
    rw [gatherShards, h]
  · intro h hr
    rw [gatherShards, h, hr]

/-- Witness for `shard_not_found_skip`: three target shards, the middle one
removed from the cluster, gather into exactly the first and third shards'
results. -/
theorem shard_not_found_skip_witness :
    gatherShards
      (fun s => if s = "b" then ResolveRes.notFound else ResolveRes.found s)
      (fun s => RunRes.ok s) ["a", "b", "c"] = .ok [("a", "a"), ("c", "c")] := by
  exact (shard_not_found_skip
    (fun s => if s = "b" then ResolveRes.notFound else ResolveRes.found s)
    (fun s => RunRes.ok s) "a" "a" [] "a" "b" "c" "a" "c" "" "a" "c").2.1
    (by decide) (by decide) (by decide) (by decide) (by decide)

/-! ## Data-size key checks: `DataSizeCmd::run`

Before any shard is contacted, the sharded branch uasserts that the command's
`keyPattern` argument is byte-wise equal (`SimpleBSONObjComparator`) to the
collection's shard key pattern (13408) and that the `min` and `max` arguments
have the shard-key shape (13405, 13406). -/

/-- A shard key pattern: ordered field names with their pattern values. -/
abbrev KeyPattern := List (String × Int)

/-- `ShardKeyPattern::isShardKey`: the document carries exactly the pattern's
field names, in order. -/
def isShardKey (pattern : KeyPattern) (doc : BDoc) : Bool :=
  doc.map Prod.fst == pattern.map Prod.fst

/-- The outcome of `DataSizeCmd::run` up to dispatch: the first failed uassert
(code and message) if any, and the shards actually dispatched to. -/
structure DataSizeOutcome where
  uerror : Option (Int × String)
  dispatched : List String
deriving DecidableEq

/-- The pre-dispatch validation of `DataSizeCmd::run` on a sharded namespace:
uassert 13408 (`keyPattern` byte-equal to the shard key pattern), then 13405
and 13406 (`min`/`max` have the shard-key shape); only then is the command
dispatched to the shards covering the range. -/
def dataSizeRun (shardKeyPattern keyPatternArg : KeyPattern) (minArg maxArg : BDoc)
    (targets : List String) : DataSizeOutcome :=
  if keyPatternArg ≠ shardKeyPattern then
    ⟨some (13408, "keyPattern must equal shard key"), []⟩
  else if !isShardKey shardKeyPattern minArg then
    ⟨some (13405, "min value does not have shard key"), []⟩
  else if !isShardKey shardKeyPattern maxArg then
    ⟨some (13406, "max value does not have shard key"), []⟩
  else ⟨none, targets⟩

/-- C9: in the data-size probe against a partitioned namespace, a `keyPattern`
argument that is not byte-identical to the collection's shard key pattern, or
a `min` or `max` argument without the shard-key shape, fails as a user error
with no shard dispatched; when all three checks pass the dispatch proceeds. -/
theorem datasize_key_checks (shardKeyPattern keyPatternArg : KeyPattern)
    (minArg maxArg : BDoc) (targets : List String) :
    (keyPatternArg ≠ shardKeyPattern →
      dataSizeRun shardKeyPattern keyPatternArg minArg maxArg targets
        = ⟨some (13408, "keyPattern must equal shard key"), []⟩) ∧
    (keyPatternArg = shardKeyPattern → ¬isShardKey shardKeyPattern minArg →
      dataSizeRun shardKeyPattern keyPatternArg minArg maxArg targets
        = ⟨some (13405, "min value does not have shard key"), []⟩) ∧
    (keyPatternArg = shardKeyPattern → isShardKey shardKeyPattern minArg →
      ¬isShardKey shardKeyPattern maxArg →
      dataSizeRun shardKeyPattern keyPatternArg minArg maxArg targets
        = ⟨some (13406, "max value does not have shard key"), []⟩) ∧
    ((dataSizeRun shardKeyPattern keyPatternArg minArg maxArg targets).uerror ≠ none →
      (dataSizeRun shardKeyPattern keyPatternArg minArg maxArg targets).dispatched
        = []) ∧
    (keyPatternArg = shardKeyPattern → isShardKey shardKeyPattern minArg →
      isShardKey shardKeyPattern maxArg →
      dataSizeRun shardKeyPattern keyPatternArg minArg maxArg targets
        = ⟨none, targets⟩) := by
  refine ⟨?_, ?_, ?_, ?_, ?_⟩
  · intro h
    rw [dataSizeRun, if_pos h]
  · intro h hmin
    rw [dataSizeRun, if_neg (by simp [h]), if_pos (by simpa using hmin)]
  · intro h hmin hmax
    rw [dataSizeRun, if_neg (by simp [h]), if_neg (by simpa using hmin),
      if_pos (by simpa using hmax)]
  · intro h
    rw [dataSizeRun] at h ⊢
    by_cases h1 : keyPatternArg ≠ shardKeyPattern
    · rw [if_pos h1]
    · rw [if_neg h1] at h ⊢
      by_cases h2 : !isShardKey shardKeyPattern minArg
      · rw [if_pos h2]
      · rw [if_neg h2] at h ⊢
        by_cases h3 : !isShardKey shardKeyPattern maxArg
        · rw [if_pos h3]
        · rw [if_neg h3] at h
          simp at h
  · intro h hmin hmax
    rw [dataSizeRun, if_neg (by simp [h]), if_neg (by simpa using hmin),
      if_neg (by simpa using hmax)]

/-- Witness for `datasize_key_checks`: a `keyPattern` argument `{x: 1}` against
an actual shard key `{a: 1}` is rejected with uassert 13408 and nothing is
dispatched. -/
theorem datasize_key_checks_witness :
    dataSizeRun [("a", 1)] [("x", 1)] [] [] ["shard0000"]
      = ⟨some (13408, "keyPattern must equal shard key"), []⟩ := by
  exact (datasize_key_checks [("a", 1)] [("x", 1)] [] [] ["shard0000"]).1 (by decide)

/-! ## Option-flag forwarding: `passOptions` and `_passthrough`

`PublicGridCommand::passOptions()` defaults to `false`; `_passthrough` runs
`conn->runCommand(db, cmdObj, res, passOptions() ? options : 0)`.  Only
`GroupCmd`, `SplitVectorCmd`, `DistinctCmd` and `Geo2dFindNearCmd` override
`passOptions()` to `true`. -/

/-- The flattened `passOptions()` table of the command classes registered in
this file: `true` only for the four overriding commands, the base-class
default `false` for every other command. -/
def passOptionsOf (name : String) : Bool :=
  name == "group" || name == "splitVector" || name == "distinct" || name == "geoNear"

/-- The wire call `_passthrough` issues to the primary shard. -/
structure WireCall where
  db : String
  cmd : String
  options : Int
deriving DecidableEq

/-- `_passthrough`'s dispatch: the forwarded option flags are
`passOptions() ? options : 0`. -/
def passthroughWireCall (name db cmd : String) (options : Int) : WireCall :=
  ⟨db, cmd, if passOptionsOf name then options else 0⟩

/-- C10: for every command whose family does not opt in to option forwarding,
the passthrough wire call carries option flags 0 and is identical for any two
caller-supplied option values; the opting-in families (group, splitVector,
distinct, geoNear) forward the caller's options unchanged; and the
representative non-opting commands carry `passOptions() = false`. -/
theorem passthrough_options_correct :
    (∀ name db cmd o1 o2, passOptionsOf name = false →
      passthroughWireCall name db cmd o1 = passthroughWireCall name db cmd o2 ∧
      (passthroughWireCall name db cmd o1).options = 0) ∧
    (∀ db cmd o, ∀ name ∈ ["group", "splitVector", "distinct", "geoNear"],
      passOptionsOf name = true ∧ (passthroughWireCall name db cmd o).options = o) ∧
    passOptionsOf "validate" = false ∧
    passOptionsOf "collStats" = false ∧
    passOptionsOf "dataSize" = false ∧
    passOptionsOf "filemd5" = false ∧
    passOptionsOf "renameCollection" = false := by
  refine ⟨?_, ?_, by decide, by decide, by decide, by decide, by decide⟩
  · intro name db cmd o1 o2 h
    rw [passthroughWireCall, passthroughWireCall, h]
    exact ⟨rfl, rfl⟩
  · intro db cmd o name hname
    fin_cases hname <;> exact ⟨by decide, rfl⟩

/-- Witness for `passthrough_options_correct`: the validate passthrough sends
option flags 0 whatever the caller supplied. -/
theorem passthrough_options_correct_witness :
    passthroughWireCall "validate" "test" "validate test.coll" 7
      = passthroughWireCall "validate" "test" "validate test.coll" 99 ∧
    (passthroughWireCall "validate" "test" "validate test.coll" 7).options = 0 := by
  exact passthrough_options_correct.1 "validate" "test" "validate test.coll" 7 99 (by decide)

end MongosCommands
